import Mathlib

/-!
Verification of the data-discovery artifact cache and query layer.

This file is a shallow embedding of the parts of the repository that the
checked claims are about:

* `src/data_discovery/project_manager.py` — the multi-resource artifact
  cache (`ProjectManager`): resource-id validation, cache load/store,
  GitHub fetch with stale-cache fallback, `get_project_artifacts`,
  `refresh_cache`.
* `src/data_discovery/core/project_discovery.py` — repository discovery
  and the CSV-backed discovery log.
* `src/data_discovery/api/service.py` and
  `src/data_discovery/core/service.py` — the two near-duplicate model
  filter implementations and FQN match scoring.

Python dicts keyed by strings are modelled as association lists
(`List (String × _)`, insertion order preserved) or as total functions
`String → _` for the per-project on-disk cache state.  JSON documents
(manifest/catalog) are opaque to the cache layer and are modelled by an
abstract token type `Doc := Nat`.  Network and file-system effects are
modelled by explicit environments: each HTTP exchange becomes an
environment field returning `Except String _` (an `Except.error` models
an exception escaping that call), and file writes are explicit state
transformers.  Wall-clock time is an integer field `now` of the
environment; timestamps are integers.
-/

namespace DataDiscovery

/-! String primitives.  The built-in `String` functions (`toLower`,
`splitOn`, `endsWith`, `replace`, `trim`, `<`) do not reduce inside the
kernel in this toolchain, so the Python string operations the source uses
are given structural char-list implementations here, wrapped back into
`String` via `String.mk`/`String.data`. -/

/-- Occurrence of `sub` at some position of a char list. -/
def charsContain (sub : List Char) : List Char → Bool
  | [] => sub.isEmpty
  | a :: t => sub.isPrefixOf (a :: t) || charsContain sub t

/-- Python substring test `sub in s`. -/
def strContains (s sub : String) : Bool :=
  charsContain sub.data s.data

/-- Lexicographic strict order on char lists (code-point order, as Python
compares strings). -/
def charsLt : List Char → List Char → Bool
  | _, [] => false
  | [], _ :: _ => true
  | a :: as, b :: bs => decide (a < b) || (a == b && charsLt as bs)

/-- Python `a < b` on strings. -/
def strLt (a b : String) : Bool :=
  charsLt a.data b.data

/-- Python `a <= b` on strings. -/
def strLe (a b : String) : Bool :=
  a == b || strLt a b

/-- Python `s.lower()` (ASCII). -/
def strToLower (s : String) : String :=
  String.mk (s.data.map Char.toLower)

/-- Python `s.endswith(suf)`. -/
def strEndsWith (s suf : String) : Bool :=
  suf.data.isSuffixOf s.data

/-- Python `s.strip()`: drop whitespace from both ends. -/
def strTrim (s : String) : String :=
  String.mk (((s.data.dropWhile Char.isWhitespace).reverse.dropWhile
    Char.isWhitespace).reverse)

/-- Fuel-driven splitting on a non-overlapping separator occurrence, left
to right; `acc` holds the pending chunk reversed.  The fuel is always at
least `length + 1`, so the fuel-exhausted branch is unreachable. -/
def charsSplitGo (sep : List Char) : Nat → List Char → List Char →
    List (List Char)
  | 0, l, acc => [acc.reverse ++ l]
  | _ + 1, [], acc => [acc.reverse]
  | fuel + 1, c :: rest, acc =>
    if sep.isPrefixOf (c :: rest) ∧ sep ≠ [] then
      acc.reverse :: charsSplitGo sep fuel ((c :: rest).drop sep.length) []
    else
      charsSplitGo sep fuel rest (c :: acc)

/-- Python `s.split(sep)` for a non-empty separator (the only way the
source calls it). -/
def strSplitOn (s sep : String) : List String :=
  if sep.data.isEmpty then [s]
  else (charsSplitGo sep.data (s.data.length + 1) s.data []).map String.mk

/-- Fuel-driven replacement of every non-overlapping occurrence, left to
right. -/
def charsReplaceGo (old new : List Char) : Nat → List Char → List Char
  | 0, l => l
  | _ + 1, [] => []
  | fuel + 1, c :: rest =>
    if old.isPrefixOf (c :: rest) ∧ old ≠ [] then
      new ++ charsReplaceGo old new fuel ((c :: rest).drop old.length)
    else
      c :: charsReplaceGo old new fuel rest

/-- Python `s.replace(old, new)` for a non-empty `old` (the only way the
source calls it). -/
def strReplace (s old new : String) : String :=
  if old.data.isEmpty then s
  else String.mk (charsReplaceGo old.data new.data (s.data.length + 1) s.data)

/-- Python `str(b)` for a boolean: `"True"` / `"False"`. -/
def pyStr (b : Bool) : String :=
  if b then "True" else "False"

/-- Python `str.title()` (ASCII): uppercase a letter that begins a maximal
alphabetic run, lowercase the other letters of the run. -/
def pyTitle (s : String) : String :=
  String.mk
    ((s.data.foldl
      (fun (acc : List Char × Bool) ch =>
        if ch.isAlpha then
          ((if acc.2 then ch.toLower else ch.toUpper) :: acc.1, true)
        else
          (ch :: acc.1, false))
      ([], false)).1.reverse)

/-- Artifact documents (manifest / catalog JSON) are opaque to the cache
layer; an abstract token stands for a parsed document. -/
abbrev Doc := Nat

/-- Cache metadata sidecar `cache_meta.json`
(project_manager.py `_save_cache_metadata`): timestamp, TTL, status
(`"success"` or `"error"`) and optional error message.  The `files` map
written on success and the `project_id` field carry no information used by
the logic and are omitted. -/
structure CacheMeta where
  cached_at : Int
  ttl_seconds : Int
  status : String
  error : Option String
deriving DecidableEq, Repr

/-- On-disk cache cell of one project: the `manifest.json` / `catalog.json`
files (present and parseable, or absent) and the metadata sidecar. -/
structure CacheFiles where
  manifest : Option Doc
  catalog : Option Doc
  meta : Option CacheMeta
deriving DecidableEq, Repr

/-- A cache directory with no files for the project. -/
def CacheFiles.empty : CacheFiles := ⟨none, none, none⟩

/-- The cache directory state: one cell per project id. -/
def FsState := String → CacheFiles

/-- Overwrite one project's cache cell. -/
def setCache (st : FsState) (pid : String) (c : CacheFiles) : FsState :=
  fun x => if x = pid then c else st x

/-- Environment of the `ProjectManager`: the registry view
(`list_project_ids`, filtered to projects with a docs branch), the
configuration (`MAX_PROJECTS`, `CACHE_TTL_SECONDS`), the wall clock, and
the outcome of the raw two-GET GitHub artifact fetch per project
(an `Except.error` models any exception escaping the HTTP exchange:
non-200 status, oversized content-length, JSON parse failure, timeout). -/
structure PMEnv where
  knownIds : List String
  maxProjects : Nat
  ttlSeconds : Int
  now : Int
  fetchResult : String → Except String (Doc × Doc)

/-- Validation / batch errors raised by the `ProjectManager`
(`ValueError` / `RuntimeError` in the source).  Each constructor carries
the data interpolated into the Python message: the enumerated available
resource ids, and for `tooMany` the configured limit and requested
count. -/
inductive PMError where
  | nullEntry (available : List String)
  | emptyEntry (available : List String)
  | unknownResource (id : String) (available : List String)
  | tooMany (limit : Nat) (requested : Nat) (available : List String)
  | batchFailure (requested : List String) (available : List String)
deriving DecidableEq, Repr

/-- Per-entry checks of `_validate_resource_ids` (project_manager.py
lines 95-105), in source order: the literal `"null"` check, the
empty-after-strip check, then registry membership.  The first failing
entry determines the error. -/
def checkEntries (available : List String) : List String → Except PMError Unit
  | [] => .ok ()
  | id :: rest =>
    if id = "null" then .error (.nullEntry available)
    else if strTrim id = "" then .error (.emptyEntry available)
    else if available.contains id then checkEntries available rest
    else .error (.unknownResource id available)

/-- `_validate_resource_ids` (project_manager.py lines 75-107).  `none`
models Python `None`; the bare-string form is normalised to a singleton
list by the source before any check, so the input is modelled as an
optional list.  Order of checks: `None` → `[]`; empty list → `[]`;
length over `MAX_PROJECTS` → error; then per-entry checks. -/
def validate_resource_ids (env : PMEnv) (ids : Option (List String)) :
    Except PMError (List String) :=
  match ids with
  | none => .ok []
  | some l =>
    if l.length = 0 then .ok []
    else if l.length > env.maxProjects then
      .error (.tooMany env.maxProjects l.length env.knownIds)
    else
      (checkEntries env.knownIds l).map (fun _ => l)

/-- `_is_cache_valid` (project_manager.py lines 161-186): missing or
unreadable sidecar → invalid; sidecar status `"error"` → invalid;
otherwise valid iff age is under the configured TTL (the manager's
config TTL, not the one recorded in the sidecar). -/
def is_cache_valid (env : PMEnv) (st : FsState) (pid : String) : Bool :=
  match (st pid).meta with
  | none => false
  | some m =>
    if m.status = "error" then false
    else decide (env.now - m.cached_at < env.ttlSeconds)

/-- `_load_cached_artifacts` (project_manager.py lines 188-208): return
the manifest/catalog pair iff both files exist (and parse); the metadata
sidecar and any TTL are not consulted.  `_load_cached_artifacts_fallback`
(lines 210-230) is byte-for-byte the same logic and is modelled by this
same function. -/
def load_cached_artifacts (st : FsState) (pid : String) : Option (Doc × Doc) :=
  match (st pid).manifest, (st pid).catalog with
  | some m, some c => some (m, c)
  | _, _ => none

/-- `_cache_artifacts` (project_manager.py lines 232-254) followed by the
success branch of `_save_cache_metadata` (lines 256-293): write both
artifact files and a fresh sidecar with status `"success"`.  The file
writes are modelled as succeeding; the CSV cache-status mirror is part of
the discovery log, outside this state. -/
def cache_artifacts (env : PMEnv) (st : FsState) (pid : String) (m c : Doc) :
    FsState :=
  setCache st pid
    ⟨some m, some c, some ⟨env.now, env.ttlSeconds, "success", none⟩⟩

/-- Failure branch of `_save_cache_metadata`: overwrite only the metadata
sidecar with status `"error"` and the message; the artifact files of the
project are left untouched. -/
def save_cache_metadata_error (env : PMEnv) (st : FsState) (pid : String)
    (err : String) : FsState :=
  setCache st pid
    { st pid with meta := some ⟨env.now, env.ttlSeconds, "error", some err⟩ }

/-- `get_project_by_id` (project_manager.py lines 519-545): look the id up
in the registry view; every discovered project is returned with
`type = "github"` (hard-coded at line 534).  Unknown id raises. -/
def get_project_by_id (env : PMEnv) (pid : String) : Except String String :=
  if env.knownIds.contains pid then .ok "github"
  else .error ("Unknown project ID: " ++ pid)

/-- `_fetch_github_artifacts` (project_manager.py lines 295-347): attempt
the remote fetch; on any exception, fall back to whatever cached pair
exists on disk regardless of validity (lines 335-347), re-raising the
original error only when no cached pair exists. -/
def fetch_github_artifacts (env : PMEnv) (st : FsState) (pid : String) :
    Except String (Doc × Doc) :=
  match env.fetchResult pid with
  | .ok mc => .ok mc
  | .error e =>
    match load_cached_artifacts st pid with
    | some mc => .ok mc
    | none => .error e

/-- Per-id loop of `get_project_artifacts` (project_manager.py lines
392-418).  Returns the collected `(id, pair)` list in iteration order,
the final cache state, and the trace of project ids for which a network
fetch was attempted.  A cache hit never fetches; on a cache miss the
source is fetched and cached; a failure for one id is logged and the id
is omitted. -/
def gpaLoop (env : PMEnv) : FsState → List String →
    List (String × (Doc × Doc)) × FsState × List String
  | st, [] => ([], st, [])
  | st, pid :: rest =>
    match load_cached_artifacts st pid with
    | some mc =>
      let r := gpaLoop env st rest
      ((pid, mc) :: r.1, r.2.1, r.2.2)
    | none =>
      match get_project_by_id env pid with
      | .error _ => gpaLoop env st rest
      | .ok _ =>
        match fetch_github_artifacts env st pid with
        | .ok (m, c) =>
          let r := gpaLoop env (cache_artifacts env st pid m c) rest
          ((pid, (m, c)) :: r.1, r.2.1, pid :: r.2.2)
        | .error _ =>
          let r := gpaLoop env st rest
          (r.1, r.2.1, pid :: r.2.2)

/-- `get_project_artifacts` (project_manager.py lines 379-427): validate,
expand an empty selection to all known ids, run the per-id loop, and
raise a batch error iff no id produced a pair. -/
def get_project_artifacts (env : PMEnv) (st : FsState)
    (ids : Option (List String)) :
    Except PMError (List (String × (Doc × Doc)) × FsState × List String) :=
  match validate_resource_ids env ids with
  | .error e => .error e
  | .ok l =>
    let ids' := if l.isEmpty then env.knownIds else l
    let r := gpaLoop env st ids'
    if r.1.isEmpty then .error (.batchFailure ids' env.knownIds)
    else .ok r

/-- Per-resource result entry of `refresh_cache`. -/
structure RefreshEntry where
  success : Bool
  action : String
  error : Option String
deriving DecidableEq, Repr

/-- One iteration of the `refresh_cache` loop (project_manager.py lines
450-482): skip when not forced and the cache is valid; otherwise fetch
(with the stale-cache fallback inside `_fetch_github_artifacts`) and
cache on success; on an exception, save error metadata and report a
failed entry. -/
def refreshStep (env : PMEnv) (st : FsState) (force : Bool) (pid : String) :
    RefreshEntry × FsState :=
  if !force && is_cache_valid env st pid then
    (⟨true, "skipped", none⟩, st)
  else
    match get_project_by_id env pid with
    | .error e => (⟨false, "failed", some e⟩, save_cache_metadata_error env st pid e)
    | .ok _ =>
      match fetch_github_artifacts env st pid with
      | .ok (m, c) => (⟨true, "refreshed", none⟩, cache_artifacts env st pid m c)
      | .error e => (⟨false, "failed", some e⟩, save_cache_metadata_error env st pid e)

/-- Sequential fold of `refreshStep` over the resource ids, threading the
cache state and collecting per-id entries in order. -/
def refreshLoop (env : PMEnv) (force : Bool) : FsState → List String →
    List (String × RefreshEntry) × FsState
  | st, [] => ([], st)
  | st, pid :: rest =>
    let s := refreshStep env st force pid
    let r := refreshLoop env force s.2 rest
    ((pid, s.1) :: r.1, r.2)

/-- `refresh_cache` (project_manager.py lines 429-484): validate, expand
an empty selection to all known ids, and run the per-id refresh loop.
Individual failures never raise; only validation errors do. -/
def refresh_cache (env : PMEnv) (st : FsState) (ids : Option (List String))
    (force : Bool) :
    Except PMError (List (String × RefreshEntry) × FsState) :=
  match validate_resource_ids env ids with
  | .error e => .error e
  | .ok l =>
    let ids' := if l.isEmpty then env.knownIds else l
    .ok (refreshLoop env force st ids')

/-! Cross-resource query layer: the manifest node shape the services read,
the two near-duplicate `_filter_models_by_criteria` implementations, and
FQN match scoring / search from `api/service.py`. -/

/-- Manifest node projection: exactly the fields the services touch.
Missing keys default to the empty value, matching the `.get(..., default)`
accesses in the source (`config.materialized` is flattened to a field). -/
structure Node where
  resource_type : String := ""
  name : String := ""
  schema : String := ""
  database : String := ""
  description : String := ""
  tags : List String := []
  materialized : String := ""
  original_file_path : String := ""
  relation_name : String := ""
  fqn : List String := []
deriving DecidableEq, Repr

/-- Python truthiness of an optional string parameter: present and
non-empty. -/
def optTruthy (o : Option String) : Bool :=
  match o with
  | none => false
  | some s => !(s == "")

/-- Lexicographic comparison on a `(schema, name)` key, as Python compares
the key tuples of `sorted`. -/
def leKey {α : Type} (k : α → String × String) (a b : α) : Bool :=
  strLt (k a).1 (k b).1 || ((k a).1 == (k b).1 && strLe (k a).2 (k b).2)

/-- Insert an element after every already-placed element that compares
less-or-equal, so equal keys keep their original order. -/
def insertSorted {α : Type} (le : α → α → Bool) (a : α) : List α → List α
  | [] => [a]
  | b :: t => if le b a then b :: insertSorted le a t else a :: b :: t

/-- Stable ascending sort (insertion sort), modelling Python's stable
`sorted`. -/
def sortByKey {α : Type} (le : α → α → Bool) (l : List α) : List α :=
  l.foldl (fun acc a => insertSorted le a acc) []

/-- The model summary dict built by the API service filter
(api/service.py lines 366-378). -/
structure ApiModelData where
  unique_id : String
  name : String
  schema : String
  database : String
  materialized : String
  description : String
  tags : List String
  path : String
  fqn : List String
  relation_name : String
  resource_id : String
deriving DecidableEq, Repr

/-- Extra fields the core service filter adds when `show_details=True`
(core/service.py lines 520-528). -/
structure CoreModelDetails where
  unique_id : String
  materialized : String
  tags : List String
  path : String
  fqn : List String
  resource_id : String
deriving DecidableEq, Repr

/-- The model dict built by the core service filter (core/service.py
lines 511-530): base fields always, detail fields only when requested. -/
structure CoreModelData where
  name : String
  database : String
  schema : String
  description : String
  relation_name : String
  details : Option CoreModelDetails
deriving DecidableEq, Repr

namespace Api

/-- Match test of the API service `_filter_models_by_criteria`
(api/service.py lines 347-362): with a truthy schema filter, a
case-normalised substring test against the node schema; otherwise with a
truthy level filter, the medallion token must occur in an FQN segment or
in the schema; otherwise no match. -/
def matchesCriteria (schema level : Option String) (info : Node) : Bool :=
  if optTruthy schema then
    strContains (strToLower info.schema) (schema.getD "")
  else if optTruthy level then
    let lv := level.getD ""
    if lv == "bronze" then
      info.fqn.any (fun part => strContains (strToLower part) "bronze")
        || strContains (strToLower info.schema) "bronze"
    else if lv == "silver" then
      info.fqn.any (fun part => strContains (strToLower part) "silver")
        || strContains (strToLower info.schema) "silver"
    else if lv == "gold" then
      info.fqn.any (fun part => strContains (strToLower part) "gold")
        || strContains (strToLower info.schema) "gold"
    else false
  else false

/-- `_filter_models_by_criteria` of the API service (api/service.py lines
333-382): keep model nodes matching the criteria, project the summary
fields, and sort by `(schema, name)`. -/
def filter_models_by_criteria (models : List (String × Node))
    (schema level : Option String) (resource_id : String) : List ApiModelData :=
  sortByKey (leKey fun d => (d.schema, d.name))
    (models.filterMap fun p =>
      if p.2.resource_type == "model" && matchesCriteria schema level p.2 then
        some ⟨p.1, p.2.name, p.2.schema, p.2.database, p.2.materialized,
              p.2.description, p.2.tags, p.2.original_file_path, p.2.fqn,
              p.2.relation_name, resource_id⟩
      else none)

end Api

namespace Core

/-- Match test of the core service `_filter_models_by_criteria`
(core/service.py lines 488-507): with a truthy schema filter, exact
case-normalised equality; with a truthy level filter, the medallion token
test, except that gold excludes any node whose unique id contains
`"fsc_utils"` (lines 499-504); with neither filter, every model
matches. -/
def matchesCriteria (schema level : Option String) (model_id : String)
    (info : Node) : Bool :=
  if optTruthy schema then
    strToLower (schema.getD "") == strToLower info.schema
  else if optTruthy level then
    let lv := level.getD ""
    if lv == "bronze" then
      info.fqn.any (fun part => strContains (strToLower part) "bronze")
        || strContains (strToLower info.schema) "bronze"
    else if lv == "silver" then
      info.fqn.any (fun part => strContains (strToLower part) "silver")
        || strContains (strToLower info.schema) "silver"
    else if lv == "gold" then
      if strContains model_id "fsc_utils" then false
      else
        info.fqn.any (fun part => strContains (strToLower part) "gold")
          || strContains (strToLower info.schema) "gold"
    else false
  else true

/-- `_filter_models_by_criteria` of the core service (core/service.py
lines 473-532): keep model nodes matching the criteria, project the base
fields plus optional details, and sort by `(schema, name)`. -/
def filter_models_by_criteria (models : List (String × Node))
    (schema level : Option String) (resource_id : String)
    (show_details : Bool) : List CoreModelData :=
  sortByKey (leKey fun d => (d.schema, d.name))
    (models.filterMap fun p =>
      if p.2.resource_type == "model" && matchesCriteria schema level p.1 p.2 then
        some ⟨p.2.name, p.2.database, p.2.schema, p.2.description,
              p.2.relation_name,
              if show_details then
                some ⟨p.1, p.2.materialized, p.2.tags,
                      p.2.original_file_path, p.2.fqn, resource_id⟩
              else none⟩
      else none)

end Core

/-- `_calculate_fqn_match_score` (api/service.py lines 767-793): schema
component (+10 for exact match on the second-to-last FQN part), table
component (an if/elif chain: +10 exact name, +5 when the table occurs as
a substring of the name, +8 when the name ends with the
double-underscore suffix), database component (+5 exact, +2 substring)
when the FQN has three parts.  The Python floats only ever hold small
integer sums, modelled as naturals. -/
def calculate_fqn_match_score (target_fqn database schema model_name : String) :
    Nat :=
  let targetParts := strSplitOn (strToLower target_fqn) "."
  let schemaScore : Nat :=
    if 2 ≤ targetParts.length
        ∧ strToLower schema = targetParts.getD (targetParts.length - 2) "" then 10
    else 0
  let targetTable := targetParts.getLastD ""
  let tableScore : Nat :=
    if strToLower model_name = targetTable then 10
    else if strContains (strToLower model_name) targetTable then 5
    else if strEndsWith (strToLower model_name) ("__" ++ targetTable) then 8
    else 0
  let dbScore : Nat :=
    if targetParts.length = 3 then
      let targetDb := targetParts.getD 0 ""
      if strToLower database = targetDb then 5
      else if strContains (strToLower database) targetDb then 2
      else 0
    else 0
  schemaScore + tableScore + dbScore

/-- One FQN candidate produced by `_search_by_fqn`: project, node id,
node, and its match score. -/
structure FqnMatch where
  project_id : String
  node_id : String
  node : Node
  match_score : Nat
deriving DecidableEq, Repr

/-- Candidate collection of `_search_by_fqn` (api/service.py lines
676-742): parse the FQN into 2 or 3 parts (anything else is an error),
then keep every model node whose schema matches exactly, whose table name
matches one of the name variants (exact, double-underscore tail, or
underscores stripped), and whose database matches when a database part
was given; each candidate is scored.  Iteration order is projects in
order, nodes in order. -/
def search_by_fqn_candidates (fqn : String)
    (artifacts : List (String × List (String × Node))) :
    Except String (List FqnMatch) :=
  let fqnParts := strSplitOn fqn "."
  let parsed : Option (Option String × String × String) :=
    match fqnParts with
    | [db, s, t] => some (some db, s, t)
    | [s, t] => some (none, s, t)
    | _ => none
  match parsed with
  | none => .error ("Invalid FQN format: " ++ fqn)
  | some (targetDb, targetSchema, targetTable) =>
    .ok (artifacts.flatMap fun proj =>
      proj.2.filterMap fun p =>
        if p.2.resource_type == "model" then
          let modelDatabase := strToLower p.2.database
          let modelSchema := strToLower p.2.schema
          let modelName := strToLower p.2.name
          let possibleTableNames :=
            [modelName,
             if strContains modelName "__" then
               (strSplitOn modelName "__").getLastD modelName
             else modelName,
             strReplace modelName "_" ""]
          let schemaMatches := modelSchema == strToLower targetSchema
          let tableMatches :=
            (possibleTableNames.map strToLower).contains (strToLower targetTable)
          let databaseMatches :=
            match targetDb with
            | none => true
            | some d =>
              modelDatabase == strToLower d || strContains modelDatabase (strToLower d)
          if schemaMatches && tableMatches && databaseMatches then
            some ⟨proj.1, p.1, p.2,
                  calculate_fqn_match_score fqn modelDatabase modelSchema modelName⟩
          else none
        else none)

/-- First candidate of maximal score.  The source sorts the candidate
list by score descending with Python's stable `list.sort` and takes the
head, which is exactly the first-encountered maximum; a fold replacing
the best only on a strictly larger score computes the same element. -/
def pickBest : List FqnMatch → Option FqnMatch
  | [] => none
  | x :: xs => some (xs.foldl (fun b c => if b.match_score < c.match_score then c else b) x)

/-- `_search_by_fqn` (api/service.py lines 668-759) after artifact
loading: collect scored candidates and return the best match, or an
error when nothing matched.  The final formatting of the winning node
(`_format_model_details`) is presentation and not modelled. -/
def search_by_fqn (fqn : String)
    (artifacts : List (String × List (String × Node))) :
    Except String FqnMatch :=
  match search_by_fqn_candidates fqn artifacts with
  | .error e => .error e
  | .ok ms =>
    match pickBest ms with
    | none => .error ("No models found matching FQN: " ++ fqn)
    | some m => .ok m

/-! Repository discovery and the CSV-backed discovery log
(`core/project_discovery.py`). -/

/-- A repository record from the GitHub organisation listing: the two
fields discovery reads. -/
structure Repo where
  name : String
  full_name : String
deriving DecidableEq, Repr

/-- One row of the discovery CSV (`project_discovery.csv`), the eleven
columns of `_initialize_csv`. -/
structure ProjectRow where
  resource_id : String
  name : String
  blockchain : String
  category : String
  aliases : String
  location : String
  cached_at : String
  status : String
  error : String
  discovered_at : String
  has_docs_branch : String
deriving DecidableEq, Repr

/-- Environment of the discovery manager.  `repoFetch` is the outcome of
`_get_flipside_repositories` (an `Except.error` models a transport
exception escaping it; its internal pagination, rate-limit sleeping and
non-200 handling are behind this abstraction).  `branchProbe` is the raw
HTTP exchange of `_check_docs_branch` per repository full name, including
its single rate-limit retry.  `cacheValid` is the per-project
`_is_cache_valid` file check; `persistOk` the outcome of the CSV
open/write inside `_write_csv_data`. -/
structure DiscEnv where
  repoFetch : Except String (List Repo)
  branchProbe : String → Except String Bool
  cacheValid : String → Bool
  nowIso : String
  persistOk : Except String Unit

/-- `_generate_name_from_id` (project_discovery.py lines 131-136). -/
def generate_name_from_id (resource_id : String) : String :=
  if strEndsWith resource_id "-models" then
    pyTitle (strReplace resource_id "-models" "") ++ " Models"
  else pyTitle (strReplace resource_id "-" " ")

/-- `_extract_blockchain_from_id` (project_discovery.py lines 138-142). -/
def extract_blockchain_from_id (resource_id : String) : String :=
  if strEndsWith resource_id "-models" then strReplace resource_id "-models" ""
  else resource_id

/-- `_categorize_blockchain` (project_discovery.py lines 346-361): the
fixed category table, checked in insertion order; unmatched blockchains
map to `"unknown"`. -/
def categorize_blockchain (blockchain : String) : String :=
  let b := strToLower blockchain
  if ["bitcoin", "avalanche", "near", "flow", "stellar", "ton", "aleo",
      "aptos", "movement"].contains b then "l1"
  else if ["ethereum", "arbitrum", "optimism", "polygon", "base", "bsc",
      "gnosis", "mantle", "blast", "aurora", "boba", "ronin", "ink",
      "swell", "kaia", "rise", "monad", "core", "mezo"].contains b then "evm"
  else if ["cosmos", "osmosis", "terra", "thorchain", "axelar",
      "maya"].contains b then "ibc"
  else if ["solana", "eclipse"].contains b then "svm"
  else if ["crosschain", "external"].contains b then "multi-chain"
  else if ["kairos"].contains b then "internal"
  else "unknown"

/-- `_generate_aliases` (project_discovery.py lines 363-391).  The source
deduplicates through a Python `set`, whose iteration order is
unspecified; modelled as an order-preserving dedup of the accumulated
list. -/
def generate_aliases (resource_id : String) : String :=
  let aliases :=
    [resource_id] ++
      (if strEndsWith resource_id "-models" then
        let base := strReplace resource_id "-models" ""
        [base, base ++ "_models", base ++ "-models"]
      else [])
  let blockchain := extract_blockchain_from_id resource_id
  let abbrevs :=
    if blockchain = "bitcoin" then ["btc"]
    else if blockchain = "ethereum" then ["eth"]
    else if blockchain = "polygon" then ["matic", "poly"]
    else if blockchain = "avalanche" then ["avax"]
    else if blockchain = "bsc" then ["bnb", "binance"]
    else if blockchain = "solana" then ["sol"]
    else if blockchain = "arbitrum" then ["arb"]
    else if blockchain = "optimism" then ["op"]
    else []
  String.intercalate "|" ((aliases ++ abbrevs).eraseDups)

/-- `_check_docs_branch` (project_discovery.py lines 310-344): the probe
outcome, with the catch-all mapping any escaping error to `False`
(absence of a branch is treated as a normal outcome). -/
def check_docs_branch (env : DiscEnv) (full_name : String) : Bool :=
  match env.branchProbe full_name with
  | .ok b => b
  | .error _ => false

/-- `_write_csv_data` (project_discovery.py lines 433-459): empty data
returns before the file is opened, leaving the store untouched; otherwise
the whole table is rewritten.  A write error is caught inside the
function; the store is modelled as unchanged in that case (the
partial-write corruption window is not representable shallowly). -/
def write_csv_data (env : DiscEnv) (csv data : List ProjectRow) :
    List ProjectRow :=
  if data.isEmpty then csv
  else
    match env.persistOk with
    | .ok _ => data
    | .error _ => csv

/-- `_update_discovered_projects` (project_discovery.py lines 393-415):
read the existing table, carry the recorded `cached_at`/`status`/`error`
over to rediscovered ids, and rewrite the table.  The source indexes
existing rows through a dict (last duplicate id would win); the
discovery log keys rows uniquely by `resource_id`, so a first-match
lookup is equivalent.  Its own catch-all never lets an error escape. -/
def update_discovered_projects (env : DiscEnv) (csv : List ProjectRow)
    (projects : List ProjectRow) : List ProjectRow :=
  let merged := projects.map fun p =>
    match csv.find? (fun row => row.resource_id == p.resource_id) with
    | some row =>
      { p with cached_at := row.cached_at, status := row.status,
               error := row.error }
    | none => p
  write_csv_data env csv merged

/-- The `project_data` dict built for one repository during discovery
(project_discovery.py lines 190-221). -/
def buildRow (env : DiscEnv) (repo : Repo) (hasDocs : String) : ProjectRow :=
  { resource_id := repo.name
    name := generate_name_from_id repo.name
    blockchain := extract_blockchain_from_id repo.name
    category := categorize_blockchain (extract_blockchain_from_id repo.name)
    aliases := generate_aliases repo.name
    location := repo.full_name
    cached_at := ""
    status := ""
    error := ""
    discovered_at := env.nowIso
    has_docs_branch := hasDocs }

/-- `discover_flipside_projects` (project_discovery.py lines 144-238):
list the organisation repositories, filter to the `-models` suffix and
the optionally requested subset (an empty `specific_projects` list is
falsy and filters nothing), split off repositories whose valid cache lets
the docs-branch probe be skipped (assumed `"True"`), probe the rest,
persist the result, and return it together with the updated store.  The
surrounding catch-all turns any escaping error — only the repository
listing can raise, since the probe and the persist swallow their own
errors — into an empty list with the store untouched. -/
def discover_flipside_projects (env : DiscEnv) (csv : List ProjectRow)
    (skip_valid_cache force_refresh : Bool)
    (specific_projects : Option (List String)) :
    List ProjectRow × List ProjectRow :=
  match env.repoFetch with
  | .error _ => ([], csv)
  | .ok repos =>
    let modelRepos := repos.filter (fun r => strEndsWith r.name "-models")
    let modelRepos :=
      match specific_projects with
      | some sp =>
        if sp.isEmpty then modelRepos
        else modelRepos.filter (fun r => sp.contains r.name)
      | none => modelRepos
    let useSkip := skip_valid_cache && !force_refresh
    let reposSkipped :=
      if useSkip then modelRepos.filter (fun r => env.cacheValid r.name) else []
    let reposToCheck :=
      if useSkip then modelRepos.filter (fun r => !(env.cacheValid r.name))
      else modelRepos
    let fromSkipped := reposSkipped.map (fun r => buildRow env r "True")
    let fromChecked := reposToCheck.map
      (fun r => buildRow env r (pyStr (check_docs_branch env r.full_name)))
    let validProjects := fromSkipped ++ fromChecked
    (validProjects, update_discovered_projects env csv validProjects)

/-! Helper lemmas shared by the claim theorems. -/

/-- Cache cells other than the written one are untouched. -/
theorem setCache_ne (st : FsState) (pid : String) (c : CacheFiles) (x : String)
    (h : x ≠ pid) : setCache st pid c x = st x := by
  simp [setCache, h]

/-- Reading back the written cache cell. -/
theorem setCache_self (st : FsState) (pid : String) (c : CacheFiles) :
    setCache st pid c pid = c := by
  simp [setCache]

/-- Both artifact files present means the cached load succeeds with that
pair. -/
theorem load_cached_artifacts_some (st : FsState) (pid : String) (m c : Doc)
    (hm : (st pid).manifest = some m) (hc : (st pid).catalog = some c) :
    load_cached_artifacts st pid = some (m, c) := by
  unfold load_cached_artifacts
  rw [hm, hc]

/-- Cache validity only reads the project's own cell. -/
theorem is_cache_valid_congr (env : PMEnv) (st st' : FsState) (pid : String)
    (h : st' pid = st pid) :
    is_cache_valid env st' pid = is_cache_valid env st pid := by
  simp [is_cache_valid, h]

/-- A validated entry list only contains registered ids. -/
theorem checkEntries_ok_contains (avail : List String) :
    ∀ l : List String, checkEntries avail l = .ok () →
      ∀ x ∈ l, avail.contains x = true := by
  intro l
  induction l with
  | nil => intro _ x hx; cases hx
  | cons y t ih =>
    intro h x hx
    unfold checkEntries at h
    split at h
    · cases h
    · split at h
      · cases h
      · split at h
        · rcases List.mem_cons.mp hx with hx | hx
          · subst hx; assumption
          · exact ih h x hx
        · cases h

/-- A validated singleton selection pins the id as registered. -/
theorem validate_singleton_contains (env : PMEnv) (pid : String)
    (hval : validate_resource_ids env (some [pid]) = .ok [pid]) :
    env.knownIds.contains pid = true := by
  unfold validate_resource_ids at hval
  simp only [List.length_singleton] at hval
  split at hval
  · omega
  · split at hval
    · cases hval
    · cases hcheck : checkEntries env.knownIds [pid] with
      | ok u =>
        exact checkEntries_ok_contains env.knownIds [pid] (by
          cases u; exact hcheck) pid (by simp)
      | error e => rw [hcheck] at hval; cases hval

/-- `insertSorted` preserves a boolean invariant of all elements. -/
theorem insertSorted_all {α : Type} (le : α → α → Bool) (p : α → Bool)
    (a : α) : ∀ l : List α,
    (insertSorted le a l).all p = (p a && l.all p) := by
  intro l
  induction l with
  | nil => simp [insertSorted]
  | cons b t ih =>
    unfold insertSorted
    split
    · simp only [List.all_cons, ih]
      cases p a <;> cases p b <;> simp
    · simp [List.all_cons]

/-- `sortByKey` preserves a boolean invariant of all elements. -/
theorem sortByKey_all {α : Type} (le : α → α → Bool) (p : α → Bool)
    (l : List α) : (sortByKey le l).all p = l.all p := by
  suffices h : ∀ acc : List α,
      (l.foldl (fun acc a => insertSorted le a acc) acc).all p
        = (acc.all p && l.all p) by
    simpa [sortByKey] using h []
  induction l with
  | nil => intro acc; simp
  | cons a t ih =>
    intro acc
    simp only [List.foldl_cons, ih, insertSorted_all, List.all_cons]
    cases p a <;> cases acc.all p <;> simp

/-! Claim C6. -/

/-- C6 (code bug): the table-name component of `_calculate_fqn_match_score`
never awards the +8 dbt naming-convention score its own comment documents.
A name ending in `__<table>` always contains `<table>` as a substring, so
the `elif target_table in model_name` branch (+5) fires first and the
`elif model_name.endswith(f"__{target_table}")` branch (+8) is
unreachable.  At the failing input — candidate name `core__fact_tx`
against target table `fact_tx`, with schema and database chosen not to
match — the code yields a table contribution of 5, not the 8 the claim
(and the source comment at api/service.py line 783) states; with
matching schema and database the total is 20 where the claim predicts
23. -/
theorem fqn_suffix_score_shadowed_bug :
    calculate_fqn_match_score "x.core.fact_tx" "" "other" "core__fact_tx" = 5 ∧
    calculate_fqn_match_score "ethereum.core.fact_tx" "ethereum" "core"
      "core__fact_tx" = 20 := by
  exact ⟨by decide, by decide⟩

/-! Claim C7. -/

/-- Candidate with the dbt double-underscore naming convention. -/
def nodeSuffix : Node :=
  { resource_type := "model", name := "core__fact_tx", schema := "core",
    database := "ethereum" }

/-- Candidate whose name equals the target table exactly. -/
def nodeExact : Node :=
  { resource_type := "model", name := "fact_tx", schema := "core",
    database := "ethereum" }

/-- C7: against target FQN `ethereum.core.fact_tx`, the candidate named
`fact_tx` (exact table-name match) scores strictly higher than the
candidate named `core__fact_tx`, and `_search_by_fqn` returns it as the
single best match.  (Concretely the scores are 25 and 20; the spec's
predicted component values differ — see C6 — but the strict ordering and
the selected winner are as the claim states.) -/
theorem fqn_exact_name_outscores_suffix :
    calculate_fqn_match_score "ethereum.core.fact_tx" "ethereum" "core"
        "core__fact_tx"
      < calculate_fqn_match_score "ethereum.core.fact_tx" "ethereum" "core"
        "fact_tx" ∧
    search_by_fqn "ethereum.core.fact_tx"
        [("ethereum-models",
          [("model.e.core__fact_tx", nodeSuffix),
           ("model.e.fact_tx", nodeExact)])]
      = .ok ⟨"ethereum-models", "model.e.fact_tx", nodeExact, 25⟩ := by
  exact ⟨by decide, rfl⟩

/-! Claim C10. -/

/-- A gold-schema model living in the `fsc_utils` package. -/
def goldUtilsNode : Node :=
  { resource_type := "model", name := "utils_gold", schema := "gold" }

/-- C10: the two `_filter_models_by_criteria` implementations disagree on
the gold medallion level.  The core service filter drops every node whose
unique id contains `"fsc_utils"` from `level="gold"` results
(core/service.py lines 499-504); the API service filter has no such
exclusion, so on a node set containing a gold `fsc_utils` model the core
filter returns the empty set while the API filter returns the model.  The
final conjunct proves the exclusion in general: every entry the core
filter selects at gold level has a unique id not containing
`"fsc_utils"`. -/
theorem gold_filter_drift :
    Core.filter_models_by_criteria
        [("model.fsc_utils.utils_gold", goldUtilsNode)] none (some "gold")
        "res" false = [] ∧
    Api.filter_models_by_criteria
        [("model.fsc_utils.utils_gold", goldUtilsNode)] none (some "gold")
        "res"
      = [⟨"model.fsc_utils.utils_gold", "utils_gold", "gold", "", "", "",
          [], "", [], "", "res"⟩] ∧
    ∀ (models : List (String × Node)) (rid : String),
      (Core.filter_models_by_criteria models none (some "gold") rid
          true).all
        (fun d =>
          match d.details with
          | some dd => !(strContains dd.unique_id "fsc_utils")
          | none => true) = true := by
  refine ⟨by decide, by decide, ?_⟩
  intro models rid
  unfold Core.filter_models_by_criteria
  rw [sortByKey_all]
  rw [List.all_eq_true]
  intro d hd
  rcases List.mem_filterMap.mp hd with ⟨p, hp, hsome⟩
  by_cases hcond : (p.2.resource_type == "model"
      && Core.matchesCriteria none (some "gold") p.1 p.2) = true
  · rw [if_pos hcond] at hsome
    have hmatch : Core.matchesCriteria none (some "gold") p.1 p.2 = true :=
      ((Bool.and_eq_true _ _).mp hcond).2
    have hcon : strContains p.1 "fsc_utils" = false := by
      by_cases hc : strContains p.1 "fsc_utils" = true
      · simp [Core.matchesCriteria, optTruthy, hc] at hmatch
      · exact Bool.eq_false_iff.mpr hc
    cases hsome
    simp [hcon]
  · rw [if_neg hcond] at hsome
    cases hsome

/-! Claim C4. -/

/-- Entry checks fail with `unknownResource` on the first unregistered
entry when every entry passes the null/empty checks. -/
theorem checkEntries_unknown (avail : List String) :
    ∀ l : List String,
      (∀ x ∈ l, x ≠ "null" ∧ strTrim x ≠ "") →
      (∃ x ∈ l, avail.contains x = false) →
      ∃ x, x ∈ l ∧ avail.contains x = false ∧
        checkEntries avail l = .error (.unknownResource x avail) := by
  intro l
  induction l with
  | nil =>
    rintro _ ⟨x, hx, _⟩
    cases hx
  | cons y t ih =>
    intro hwf hex
    have hy := hwf y (by simp)
    by_cases hyc : avail.contains y = true
    · have hext : ∃ x ∈ t, avail.contains x = false := by
        rcases hex with ⟨x, hx, hxc⟩
        rcases List.mem_cons.mp hx with rfl | hx
        · rw [hyc] at hxc; cases hxc
        · exact ⟨x, hx, hxc⟩
      rcases ih (fun x hx => hwf x (List.mem_cons_of_mem _ hx)) hext
        with ⟨x, hx, hxc, heq⟩
      refine ⟨x, List.mem_cons_of_mem _ hx, hxc, ?_⟩
      refine Eq.trans ?_ heq
      conv_lhs => unfold checkEntries
      rw [if_neg hy.1, if_neg hy.2, if_pos hyc]
    · refine ⟨y, by simp, Bool.eq_false_iff.mpr hyc, ?_⟩
      conv_lhs => unfold checkEntries
      rw [if_neg hy.1, if_neg hy.2, if_neg hyc]

/-- C4: resource-id validation rejects over-long batches with a
`tooMany` error carrying the configured limit and the requested count,
and rejects selections containing an unregistered id with an
`unknownResource` error carrying the full list of known ids — provided
the entries pass the earlier per-entry null/empty checks and the length
limit (the length check comes first in the source, so both conditions
cannot fire at once).  Both error payloads enumerate the valid ids. -/
theorem validation_rejects_unknown_and_too_many (env : PMEnv)
    (l : List String) :
    (env.maxProjects < l.length →
      validate_resource_ids env (some l)
        = .error (.tooMany env.maxProjects l.length env.knownIds)) ∧
    (l.length ≤ env.maxProjects →
      (∀ x ∈ l, x ≠ "null" ∧ strTrim x ≠ "") →
      (∃ x ∈ l, env.knownIds.contains x = false) →
      ∃ x, x ∈ l ∧ env.knownIds.contains x = false ∧
        validate_resource_ids env (some l)
          = .error (.unknownResource x env.knownIds)) := by
  constructor
  · intro h
    simp only [validate_resource_ids]
    rw [if_neg (by omega : ¬l.length = 0), if_pos (by omega : l.length > env.maxProjects)]
  · intro hlen hwf hex
    rcases checkEntries_unknown env.knownIds l hwf hex with ⟨x, hx, hxc, heq⟩
    refine ⟨x, hx, hxc, ?_⟩
    have hne : ¬l.length = 0 := by
      rcases hex with ⟨y, hy, _⟩
      intro h0
      rw [List.eq_nil_of_length_eq_zero h0] at hy
      cases hy
    simp only [validate_resource_ids]
    rw [if_neg hne, if_neg (by omega : ¬l.length > env.maxProjects), heq]
    rfl

/-- Concrete environment for the C4 witness: one known resource,
`MAX_PROJECTS = 2`. -/
def envC4 : PMEnv :=
  { knownIds := ["x"], maxProjects := 2, ttlSeconds := 86400, now := 0,
    fetchResult := fun _ => .error "unused" }

/-- C4 witness: an unknown id is rejected with the known ids enumerated,
and a three-element request against the limit of 2 is rejected with limit
and count in the payload. -/
theorem validation_rejects_witness :
    validate_resource_ids envC4 (some ["y"])
      = .error (.unknownResource "y" ["x"]) ∧
    validate_resource_ids envC4 (some ["a", "b", "c"])
      = .error (.tooMany 2 3 ["x"]) := by
  constructor
  · rcases (validation_rejects_unknown_and_too_many envC4 ["y"]).2
      (by decide) (by decide) ⟨"y", by simp, by decide⟩
      with ⟨x, hx, _, heq⟩
    have : x = "y" := List.mem_singleton.mp hx
    rw [this] at heq
    exact heq
  · exact (validation_rejects_unknown_and_too_many envC4 ["a", "b", "c"]).1
      (by decide)

/-! Claim C3. -/

/-- C3: after validation succeeds, `get_project_artifacts` raises a
batch-level error if and only if the per-id loop collected no artifact
pair, the only error it can raise is that batch error, and whenever the
collected map is non-empty the possibly-partial map is returned as is
(failed ids are simply absent from it). -/
theorem batch_error_iff_empty (env : PMEnv) (st : FsState)
    (ids : Option (List String)) (l : List String)
    (hval : validate_resource_ids env ids = .ok l) :
    ((∃ e, get_project_artifacts env st ids = .error e)
      ↔ (gpaLoop env st (if l.isEmpty then env.knownIds else l)).1 = []) ∧
    (get_project_artifacts env st ids
        = .error (.batchFailure (if l.isEmpty then env.knownIds else l)
            env.knownIds)
      ↔ (gpaLoop env st (if l.isEmpty then env.knownIds else l)).1 = []) ∧
    ((gpaLoop env st (if l.isEmpty then env.knownIds else l)).1 ≠ [] →
      get_project_artifacts env st ids
        = .ok (gpaLoop env st (if l.isEmpty then env.knownIds else l))) := by
  have hgpa : get_project_artifacts env st ids
      = if (gpaLoop env st (if l.isEmpty then env.knownIds else l)).1.isEmpty
        then .error (.batchFailure (if l.isEmpty then env.knownIds else l)
          env.knownIds)
        else .ok (gpaLoop env st (if l.isEmpty then env.knownIds else l)) := by
    simp only [get_project_artifacts, hval]
  by_cases hemp : (gpaLoop env st (if l.isEmpty then env.knownIds else l)).1 = []
  · rw [hgpa, if_pos (show _ = true by rw [hemp]; rfl)]
    exact ⟨iff_of_true ⟨_, rfl⟩ hemp, iff_of_true rfl hemp,
      fun h => absurd hemp h⟩
  · have hbe : (gpaLoop env st
        (if l.isEmpty then env.knownIds else l)).1.isEmpty = false := by
      cases hX : (gpaLoop env st (if l.isEmpty then env.knownIds else l)).1 with
      | nil => exact absurd hX hemp
      | cons a t => rfl
    rw [hgpa, if_neg (by rw [hbe]; exact Bool.false_ne_true)]
    exact ⟨iff_of_false (by rintro ⟨e, h⟩; cases h) hemp,
      iff_of_false (by intro h; cases h) hemp,
      fun _ => rfl⟩

/-- Concrete environment for the C3 witness: two known resources, every
remote fetch failing. -/
def envC3 : PMEnv :=
  { knownIds := ["a", "b"], maxProjects := 5, ttlSeconds := 86400, now := 0,
    fetchResult := fun _ => .error "down" }

/-- Cache state for the C3 witness: resource `a` has cached files,
resource `b` has nothing. -/
def stC3 : FsState :=
  fun pid => if pid = "a" then ⟨some 1, some 2, none⟩ else CacheFiles.empty

/-- Fully empty cache state for the C3 witness's all-failed side. -/
def st0C3 : FsState := fun _ => CacheFiles.empty

/-- C3 witness: with `a` cached and `b` failing, the call returns the
partial one-entry map; with nothing cached and all fetches failing, it
raises the batch error. -/
theorem batch_error_iff_empty_witness :
    get_project_artifacts envC3 stC3 (some ["a", "b"])
      = .ok (gpaLoop envC3 stC3 ["a", "b"]) ∧
    (gpaLoop envC3 stC3 ["a", "b"]).1 = [("a", (1, 2))] ∧
    get_project_artifacts envC3 st0C3 (some ["a", "b"])
      = .error (.batchFailure ["a", "b"] ["a", "b"]) := by
  refine ⟨?_, rfl, ?_⟩
  · exact (batch_error_iff_empty envC3 stC3 (some ["a", "b"]) ["a", "b"]
      rfl).2.2 (by decide)
  · exact (batch_error_iff_empty envC3 st0C3 (some ["a", "b"]) ["a", "b"]
      rfl).2.1.mpr rfl

/-! Claim C2. -/

/-- Core cache-hit lemma for the read loop: when both artifact files of
`pid` exist, the loop serves that pair for `pid`, never attempts a fetch
for `pid`, and leaves `pid`'s cache cell untouched, whatever happens for
the other ids. -/
theorem gpaLoop_cached (env : PMEnv) (pid : String) (m c : Doc) :
    ∀ (ids : List String) (st : FsState),
      (st pid).manifest = some m → (st pid).catalog = some c →
      (pid ∈ ids → (gpaLoop env st ids).1.lookup pid = some (m, c)) ∧
      pid ∉ (gpaLoop env st ids).2.2 ∧
      (gpaLoop env st ids).2.1 pid = st pid := by
  intro ids
  induction ids with
  | nil =>
    intro st _ _
    exact ⟨fun h => absurd h (List.not_mem_nil pid),
      List.not_mem_nil pid, rfl⟩
  | cons q rest ih =>
    intro st hm hc
    by_cases hq : q = pid
    · subst hq
      have hload : load_cached_artifacts st q = some (m, c) :=
        load_cached_artifacts_some st q m c hm hc
      have hloop : gpaLoop env st (q :: rest)
          = ((q, (m, c)) :: (gpaLoop env st rest).1,
             (gpaLoop env st rest).2.1, (gpaLoop env st rest).2.2) := by
        simp only [gpaLoop, hload]
      obtain ⟨ih1, ih2, ih3⟩ := ih st hm hc
      rw [hloop]
      refine ⟨fun _ => ?_, ih2, ih3⟩
      simp [List.lookup]
    · have hqne : (pid == q) = false :=
        beq_eq_false_iff_ne.mpr (fun h => hq h.symm)
      have hmem_rest : pid ∈ q :: rest → pid ∈ rest := by
        intro hmem
        rcases List.mem_cons.mp hmem with h | h
        · exact absurd h.symm hq
        · exact h
      cases hload : load_cached_artifacts st q with
      | some mc =>
        have hloop : gpaLoop env st (q :: rest)
            = ((q, mc) :: (gpaLoop env st rest).1,
               (gpaLoop env st rest).2.1, (gpaLoop env st rest).2.2) := by
          simp only [gpaLoop, hload]
        obtain ⟨ih1, ih2, ih3⟩ := ih st hm hc
        rw [hloop]
        refine ⟨fun hmem => ?_, ih2, ih3⟩
        simp only [List.lookup, hqne]
        exact ih1 (hmem_rest hmem)
      | none =>
        cases hproj : get_project_by_id env q with
        | error e =>
          have hloop : gpaLoop env st (q :: rest) = gpaLoop env st rest := by
            simp only [gpaLoop, hload, hproj]
          obtain ⟨ih1, ih2, ih3⟩ := ih st hm hc
          rw [hloop]
          exact ⟨fun hmem => ih1 (hmem_rest hmem), ih2, ih3⟩
        | ok ty =>
          cases hfetch : fetch_github_artifacts env st q with
          | ok mc2 =>
            obtain ⟨m0, c0⟩ := mc2
            have hcell : cache_artifacts env st q m0 c0 pid = st pid := by
              unfold cache_artifacts
              exact setCache_ne st q _ pid (fun h => hq h.symm)
            have hloop : gpaLoop env st (q :: rest)
                = ((q, (m0, c0))
                    :: (gpaLoop env (cache_artifacts env st q m0 c0) rest).1,
                   (gpaLoop env (cache_artifacts env st q m0 c0) rest).2.1,
                   q :: (gpaLoop env (cache_artifacts env st q m0 c0)
                     rest).2.2) := by
              simp only [gpaLoop, hload, hproj, hfetch]
            obtain ⟨ih1, ih2, ih3⟩ := ih (cache_artifacts env st q m0 c0)
              (by rw [hcell]; exact hm) (by rw [hcell]; exact hc)
            rw [hloop]
            refine ⟨fun hmem => ?_, ?_, ih3.trans hcell⟩
            · simp only [List.lookup, hqne]
              exact ih1 (hmem_rest hmem)
            · intro hmem
              rcases List.mem_cons.mp hmem with h | h
              · exact hq h.symm
              · exact ih2 h
          | error e =>
            have hloop : gpaLoop env st (q :: rest)
                = ((gpaLoop env st rest).1, (gpaLoop env st rest).2.1,
                   q :: (gpaLoop env st rest).2.2) := by
              simp only [gpaLoop, hload, hproj, hfetch]
            obtain ⟨ih1, ih2, ih3⟩ := ih st hm hc
            rw [hloop]
            refine ⟨fun hmem => ih1 (hmem_rest hmem), ?_, ih3⟩
            intro hmem
            rcases List.mem_cons.mp hmem with h | h
            · exact hq h.symm
            · exact ih2 h

/-- C2: for every requested resource id whose manifest and catalog files
both exist on disk, `get_project_artifacts` returns that cached pair,
performs no network fetch for that id (it is absent from the fetch
trace), and leaves its cache cell untouched — with no assumption
whatsoever on the sidecar status or the age of the cache. -/
theorem cached_read_no_fetch (env : PMEnv) (st : FsState)
    (ids : Option (List String)) (l : List String) (pid : String) (m c : Doc)
    (hval : validate_resource_ids env ids = .ok l)
    (hpid : pid ∈ (if l.isEmpty then env.knownIds else l))
    (hm : (st pid).manifest = some m) (hc : (st pid).catalog = some c) :
    get_project_artifacts env st ids
      = .ok (gpaLoop env st (if l.isEmpty then env.knownIds else l)) ∧
    (gpaLoop env st (if l.isEmpty then env.knownIds else l)).1.lookup pid
      = some (m, c) ∧
    pid ∉ (gpaLoop env st (if l.isEmpty then env.knownIds else l)).2.2 ∧
    (gpaLoop env st (if l.isEmpty then env.knownIds else l)).2.1 pid
      = st pid := by
  obtain ⟨h1, h2, h3⟩ :=
    gpaLoop_cached env pid m c (if l.isEmpty then env.knownIds else l) st hm hc
  have hlk := h1 hpid
  have hne : (gpaLoop env st (if l.isEmpty then env.knownIds else l)).1 ≠ [] := by
    intro hnil
    rw [hnil] at hlk
    cases hlk
  have hbe : (gpaLoop env st
      (if l.isEmpty then env.knownIds else l)).1.isEmpty = false := by
    cases hX : (gpaLoop env st (if l.isEmpty then env.knownIds else l)).1 with
    | nil => exact absurd hX hne
    | cons a t => rfl
  refine ⟨?_, hlk, h2, h3⟩
  simp only [get_project_artifacts, hval]
  rw [if_neg (by rw [hbe]; exact Bool.false_ne_true)]

/-- Concrete environment for the C2 witness: one known resource, the
network unreachable. -/
def envC2 : PMEnv :=
  { knownIds := ["x"], maxProjects := 5, ttlSeconds := 86400, now := 0,
    fetchResult := fun _ => .error "net-down" }

/-- Cache state for the C2 witness: both files present, sidecar recorded
as an old error — stale and error-marked, yet still served. -/
def stC2 : FsState :=
  fun _ => ⟨some 5, some 6, some ⟨-999999, 86400, "error", some "stale"⟩⟩

/-- C2 witness: the stale, error-marked cache is served as-is, the fetch
trace is empty for the id, and the cell is unchanged. -/
theorem cached_read_no_fetch_witness :
    get_project_artifacts envC2 stC2 (some ["x"])
      = .ok (gpaLoop envC2 stC2 ["x"]) ∧
    (gpaLoop envC2 stC2 ["x"]).1.lookup "x" = some (5, 6) ∧
    "x" ∉ (gpaLoop envC2 stC2 ["x"]).2.2 ∧
    (gpaLoop envC2 stC2 ["x"]).2.1 "x" = stC2 "x" :=
  cached_read_no_fetch envC2 stC2 (some ["x"]) ["x"] "x" 5 6 rfl
    (by decide) rfl rfl

/-! Claim C1. -/

/-- Concrete environment for C1: one known resource whose remote fetch
always times out. -/
def envC1 : PMEnv :=
  { knownIds := ["x"], maxProjects := 5, ttlSeconds := 86400, now := 0,
    fetchResult := fun _ => .error "timeout" }

/-- Cache state for C1: good cached files with a valid success sidecar. -/
def stC1 : FsState :=
  fun _ => ⟨some 1, some 2, some ⟨-100, 86400, "success", none⟩⟩

/-- C1 counterexample: with a good cache on disk and the remote fetch
failing, `refresh_cache(force=True)` does NOT report
`{success: false, action: "failed"}` and does NOT persist error metadata.
The stale-cache fallback inside `_fetch_github_artifacts` (lines 335-347)
turns the failure into a successful "refresh": the entry is
`{success: true, action: "refreshed", error: None}` and the sidecar is
rewritten with status `"success"` and a fresh timestamp. -/
theorem refresh_fetch_failure_fallback_counterexample :
    (refresh_cache envC1 stC1 (some ["x"]) true).map Prod.fst
      = .ok [("x", ⟨true, "refreshed", none⟩)] ∧
    (match refresh_cache envC1 stC1 (some ["x"]) true with
      | .ok r => (r.2 "x").meta
      | .error _ => none) = some ⟨0, 86400, "success", none⟩ :=
  ⟨rfl, rfl⟩

/-- C1 amended: in a single-resource `refresh_cache(force=True)` call
whose remote fetch fails, the outcome depends on the cache.  If no cached
pair exists, the entry is `{success: false, action: "failed", error: e}`,
error metadata is persisted, and the artifact files (whatever partial
state they were in) are not touched.  If a cached pair exists, the
fallback returns it: the entry is `{success: true, action: "refreshed"}`,
the files are rewritten with the same stale pair under fresh success
metadata, and a subsequent `get_project_artifacts` still serves exactly
that pair. -/
theorem refresh_fetch_failure_amended (env : PMEnv) (st : FsState)
    (pid e : String) (res : List (String × RefreshEntry)) (st' : FsState)
    (hval : validate_resource_ids env (some [pid]) = .ok [pid])
    (hfetch : env.fetchResult pid = .error e)
    (hrun : refresh_cache env st (some [pid]) true = .ok (res, st')) :
    (load_cached_artifacts st pid = none →
      res = [(pid, ⟨false, "failed", some e⟩)] ∧
      (st' pid).manifest = (st pid).manifest ∧
      (st' pid).catalog = (st pid).catalog ∧
      (st' pid).meta = some ⟨env.now, env.ttlSeconds, "error", some e⟩) ∧
    (∀ m c : Doc, load_cached_artifacts st pid = some (m, c) →
      res = [(pid, ⟨true, "refreshed", none⟩)] ∧
      st' pid
        = ⟨some m, some c, some ⟨env.now, env.ttlSeconds, "success", none⟩⟩ ∧
      (gpaLoop env st' [pid]).1.lookup pid = some (m, c) ∧
      get_project_artifacts env st' (some [pid])
        = .ok (gpaLoop env st' [pid])) := by
  have hin : env.knownIds.contains pid = true :=
    validate_singleton_contains env pid hval
  have hproj : get_project_by_id env pid = .ok "github" := by
    unfold get_project_by_id
    rw [if_pos hin]
  have hloop : refresh_cache env st (some [pid]) true
      = .ok (refreshLoop env true st [pid]) := by
    simp [refresh_cache, hval]
  have hkey : refreshLoop env true st [pid] = (res, st') := by
    have h := hloop.symm.trans hrun
    injection h
  constructor
  · intro hcase
    have hf : fetch_github_artifacts env st pid = .error e := by
      simp only [fetch_github_artifacts, hfetch, hcase]
    have hstep : refreshStep env st true pid
        = (⟨false, "failed", some e⟩, save_cache_metadata_error env st pid e) := by
      simp [refreshStep, hproj, hf]
    have hval2 : refreshLoop env true st [pid]
        = ([(pid, ⟨false, "failed", some e⟩)],
           save_cache_metadata_error env st pid e) := by
      simp [refreshLoop, hstep]
    rw [hval2] at hkey
    have hres : res = [(pid, ⟨false, "failed", some e⟩)] :=
      (congrArg Prod.fst hkey).symm
    have hst : st' = save_cache_metadata_error env st pid e :=
      (congrArg Prod.snd hkey).symm
    subst hst
    refine ⟨hres, ?_, ?_, ?_⟩ <;>
      simp [save_cache_metadata_error, setCache_self]
  · intro m c hcase
    have hf : fetch_github_artifacts env st pid = .ok (m, c) := by
      simp only [fetch_github_artifacts, hfetch, hcase]
    have hstep : refreshStep env st true pid
        = (⟨true, "refreshed", none⟩, cache_artifacts env st pid m c) := by
      simp [refreshStep, hproj, hf]
    have hval2 : refreshLoop env true st [pid]
        = ([(pid, ⟨true, "refreshed", none⟩)],
           cache_artifacts env st pid m c) := by
      simp [refreshLoop, hstep]
    rw [hval2] at hkey
    have hres : res = [(pid, ⟨true, "refreshed", none⟩)] :=
      (congrArg Prod.fst hkey).symm
    have hst : st' = cache_artifacts env st pid m c :=
      (congrArg Prod.snd hkey).symm
    subst hst
    have hcell : cache_artifacts env st pid m c pid
        = ⟨some m, some c, some ⟨env.now, env.ttlSeconds, "success", none⟩⟩ := by
      unfold cache_artifacts
      exact setCache_self ..
    obtain ⟨h1, h2, h3⟩ := gpaLoop_cached env pid m c [pid]
      (cache_artifacts env st pid m c) (by rw [hcell]) (by rw [hcell])
    have hlk := h1 (by simp)
    refine ⟨hres, hcell, hlk, ?_⟩
    have hne : (gpaLoop env (cache_artifacts env st pid m c) [pid]).1 ≠ [] := by
      intro hnil
      rw [hnil] at hlk
      cases hlk
    have hbe : (gpaLoop env (cache_artifacts env st pid m c) [pid]).1.isEmpty
        = false := by
      cases hX : (gpaLoop env (cache_artifacts env st pid m c) [pid]).1 with
      | nil => exact absurd hX hne
      | cons a t => rfl
    simp only [get_project_artifacts, hval, List.isEmpty_cons]
    rw [if_neg Bool.false_ne_true, hbe, if_neg Bool.false_ne_true]

/-- C1 amended witness: the fallback case at the concrete environment —
the stale pair (1, 2) survives the failed refresh and is re-served. -/
theorem refresh_fetch_failure_amended_witness :
    (cache_artifacts envC1 stC1 "x" 1 2) "x"
      = ⟨some 1, some 2, some ⟨0, 86400, "success", none⟩⟩ ∧
    (gpaLoop envC1 (cache_artifacts envC1 stC1 "x" 1 2) ["x"]).1.lookup "x"
      = some (1, 2) ∧
    get_project_artifacts envC1 (cache_artifacts envC1 stC1 "x" 1 2)
        (some ["x"])
      = .ok (gpaLoop envC1 (cache_artifacts envC1 stC1 "x" 1 2) ["x"]) := by
  have h := (refresh_fetch_failure_amended envC1 stC1 "x" "timeout"
    [("x", ⟨true, "refreshed", none⟩)] (cache_artifacts envC1 stC1 "x" 1 2)
    rfl rfl rfl).2 1 2 rfl
  exact ⟨h.2.1, h.2.2.1, h.2.2.2⟩

/-! Claim C5. -/

/-- A refresh step only writes the stepped project's cache cell. -/
theorem refreshStep_other (env : PMEnv) (st : FsState) (force : Bool)
    (q pid : String) (h : pid ≠ q) :
    (refreshStep env st force q).2 pid = st pid := by
  unfold refreshStep
  split
  · rfl
  · split
    · simp [save_cache_metadata_error, setCache, h]
    · split
      · simp [cache_artifacts, setCache, h]
      · simp [save_cache_metadata_error, setCache, h]

/-- The refresh loop leaves the cache cells of unprocessed ids
untouched. -/
theorem refreshLoop_unprocessed (env : PMEnv) (force : Bool) :
    ∀ (ids : List String) (st : FsState) (pid : String), pid ∉ ids →
      (refreshLoop env force st ids).2 pid = st pid := by
  intro ids
  induction ids with
  | nil => intro st pid _; rfl
  | cons q t ih =>
    intro st pid hpid
    have hq : pid ≠ q := fun h => hpid (h ▸ List.mem_cons_self q t)
    have ht : pid ∉ t := fun h => hpid (List.mem_cons_of_mem q h)
    have hloop : (refreshLoop env force st (q :: t)).2
        = (refreshLoop env force (refreshStep env st force q).2 t).2 := by
      simp only [refreshLoop]
    rw [hloop, ih (refreshStep env st force q).2 pid ht]
    exact refreshStep_other env st force q pid hq

/-- A refresh step that reports success leaves the project's cache valid
(provided the configured TTL is positive): either it skipped because the
cache was already valid, or it wrote fresh success metadata. -/
theorem refreshStep_success_valid (env : PMEnv) (st : FsState)
    (force : Bool) (pid : String) (httl : 0 < env.ttlSeconds)
    (hsucc : (refreshStep env st force pid).1.success = true) :
    is_cache_valid env (refreshStep env st force pid).2 pid = true := by
  by_cases hguard : (!force && is_cache_valid env st pid) = true
  · have heq : refreshStep env st force pid = (⟨true, "skipped", none⟩, st) := by
      simp [refreshStep, hguard]
    rw [heq]
    exact (Bool.and_eq_true _ _).mp hguard |>.2
  · have hgf : (!force && is_cache_valid env st pid) = false :=
      Bool.eq_false_iff.mpr hguard
    cases hproj : get_project_by_id env pid with
    | error e =>
      have heq : refreshStep env st force pid
          = (⟨false, "failed", some e⟩,
             save_cache_metadata_error env st pid e) := by
        simp [refreshStep, hgf, hproj]
      rw [heq] at hsucc
      cases hsucc
    | ok ty =>
      cases hfetch : fetch_github_artifacts env st pid with
      | ok mc =>
        obtain ⟨m, c⟩ := mc
        have heq : refreshStep env st force pid
            = (⟨true, "refreshed", none⟩, cache_artifacts env st pid m c) := by
          simp [refreshStep, hgf, hproj, hfetch]
        rw [heq]
        show is_cache_valid env (cache_artifacts env st pid m c) pid = true
        unfold is_cache_valid cache_artifacts
        rw [setCache_self]
        show (if ("success" : String) = "error" then false
              else decide (env.now - env.now < env.ttlSeconds)) = true
        rw [if_neg (by decide : ¬("success" : String) = "error")]
        simp only [sub_self, decide_eq_true_eq]
        exact httl
      | error e =>
        have heq : refreshStep env st force pid
            = (⟨false, "failed", some e⟩,
               save_cache_metadata_error env st pid e) := by
          simp [refreshStep, hgf, hproj, hfetch]
        rw [heq] at hsucc
        cases hsucc

/-- After a non-forced refresh pass in which every entry reported
success, every processed project's cache is valid in the final state. -/
theorem refreshLoop_all_success_valid (env : PMEnv)
    (httl : 0 < env.ttlSeconds) :
    ∀ (ids : List String) (st : FsState),
      (∀ p ∈ (refreshLoop env false st ids).1, p.2.success = true) →
      ∀ pid ∈ ids,
        is_cache_valid env ((refreshLoop env false st ids).2) pid = true := by
  intro ids
  induction ids with
  | nil => intro st _ pid hpid; cases hpid
  | cons q t ih =>
    intro st hall pid hpid
    have hloop : refreshLoop env false st (q :: t)
        = ((q, (refreshStep env st false q).1)
            :: (refreshLoop env false (refreshStep env st false q).2 t).1,
           (refreshLoop env false (refreshStep env st false q).2 t).2) := by
      simp only [refreshLoop]
    rw [hloop] at hall
    have hhead : (refreshStep env st false q).1.success = true :=
      hall (q, (refreshStep env st false q).1) (List.mem_cons_self _ _)
    have htail : ∀ p ∈ (refreshLoop env false
        (refreshStep env st false q).2 t).1, p.2.success = true :=
      fun p hp => hall p (List.mem_cons_of_mem _ hp)
    rw [hloop]
    by_cases hqt : pid ∈ t
    · exact ih (refreshStep env st false q).2 htail pid hqt
    · have hpq : pid = q := by
        rcases List.mem_cons.mp hpid with h | h
        · exact h
        · exact absurd h hqt
      subst hpq
      have hfinal : (refreshLoop env false (refreshStep env st false pid).2
          t).2 pid = (refreshStep env st false pid).2 pid :=
        refreshLoop_unprocessed env false t _ pid hqt
      rw [is_cache_valid_congr env _ _ pid hfinal]
      exact refreshStep_success_valid env st false pid httl hhead

/-- A non-forced refresh pass over ids whose caches are all valid skips
every id and leaves the state untouched. -/
theorem refreshLoop_all_valid_skips (env : PMEnv) :
    ∀ (ids : List String) (st : FsState),
      (∀ pid ∈ ids, is_cache_valid env st pid = true) →
      refreshLoop env false st ids
        = (ids.map (fun pid => (pid, ⟨true, "skipped", none⟩)), st) := by
  intro ids
  induction ids with
  | nil => intro st _; rfl
  | cons q t ih =>
    intro st hvalid
    have hstep : refreshStep env st false q = (⟨true, "skipped", none⟩, st) := by
      simp [refreshStep, hvalid q (List.mem_cons_self q t)]
    have hloop : refreshLoop env false st (q :: t)
        = ((q, (refreshStep env st false q).1)
            :: (refreshLoop env false (refreshStep env st false q).2 t).1,
           (refreshLoop env false (refreshStep env st false q).2 t).2) := by
      simp only [refreshLoop]
    rw [hloop, hstep, ih st (fun pid hpid => hvalid pid
      (List.mem_cons_of_mem q hpid))]
    rfl

/-- Concrete environment for the C5 counterexample: one known resource,
every fetch failing, nothing cached. -/
def envC5 : PMEnv :=
  { knownIds := ["x"], maxProjects := 5, ttlSeconds := 86400, now := 0,
    fetchResult := fun _ => .error "timeout" }

/-- Empty cache state for C5. -/
def st0C5 : FsState := fun _ => CacheFiles.empty

/-- C5 counterexample: when the first non-forced refresh fails (fetch
error, no cache to fall back to), the error sidecar it writes makes the
cache invalid, so the second refresh retries and reports `"failed"`
again — not `"skipped"` for every resource as the claim states. -/
theorem second_refresh_not_skipped_counterexample :
    refresh_cache envC5 st0C5 (some ["x"]) false
      = .ok ([("x", ⟨false, "failed", some "timeout"⟩)],
          save_cache_metadata_error envC5 st0C5 "x" "timeout") ∧
    (refresh_cache envC5 (save_cache_metadata_error envC5 st0C5 "x" "timeout")
        (some ["x"]) false).map Prod.fst
      = .ok [("x", ⟨false, "failed", some "timeout"⟩)] :=
  ⟨rfl, rfl⟩

/-- C5 amended: two successive `refresh_cache(force=False)` calls with
the same selection, the same wall-clock time (no TTL elapsed) and a
positive TTL report `action="skipped"` for every resource on the second
call — provided every entry of the first call succeeded.  A resource
whose first refresh failed is retried, not skipped (see the
counterexample). -/
theorem refresh_idempotent_amended (env : PMEnv) (st : FsState)
    (ids : Option (List String)) (l : List String)
    (res1 : List (String × RefreshEntry)) (st1 : FsState)
    (httl : 0 < env.ttlSeconds)
    (hval : validate_resource_ids env ids = .ok l)
    (h1 : refresh_cache env st ids false = .ok (res1, st1))
    (hsucc : ∀ p ∈ res1, p.2.success = true) :
    refresh_cache env st1 ids false
      = .ok ((if l.isEmpty then env.knownIds else l).map
          (fun pid => (pid, ⟨true, "skipped", none⟩)), st1) := by
  have hloop1 : refresh_cache env st ids false
      = .ok (refreshLoop env false st (if l.isEmpty then env.knownIds else l)) := by
    simp only [refresh_cache, hval]
  have hkey : refreshLoop env false st (if l.isEmpty then env.knownIds else l)
      = (res1, st1) := by
    have h := hloop1.symm.trans h1
    injection h
  have hres1 : (refreshLoop env false st
      (if l.isEmpty then env.knownIds else l)).1 = res1 :=
    congrArg Prod.fst hkey
  have hst1 : (refreshLoop env false st
      (if l.isEmpty then env.knownIds else l)).2 = st1 :=
    congrArg Prod.snd hkey
  have hallvalid : ∀ pid ∈ (if l.isEmpty then env.knownIds else l),
      is_cache_valid env st1 pid = true := by
    intro pid hpid
    have h := refreshLoop_all_success_valid env httl
      (if l.isEmpty then env.knownIds else l) st
      (by rw [hres1]; exact hsucc) pid hpid
    rwa [hst1] at h
  have hskips := refreshLoop_all_valid_skips env
    (if l.isEmpty then env.knownIds else l) st1 hallvalid
  simp only [refresh_cache, hval]
  rw [hskips]

/-- Concrete environment for the C5 witness: one known resource, the
fetch succeeding with the pair (7, 8). -/
def envC5w : PMEnv :=
  { knownIds := ["x"], maxProjects := 5, ttlSeconds := 86400, now := 0,
    fetchResult := fun _ => .ok (7, 8) }

/-- C5 witness: after a successful first refresh (which cached the pair),
the immediate second non-forced refresh skips the resource and leaves the
state untouched. -/
theorem refresh_idempotent_amended_witness :
    refresh_cache envC5w (cache_artifacts envC5w st0C5 "x" 7 8)
        (some ["x"]) false
      = .ok ([("x", ⟨true, "skipped", none⟩)],
          cache_artifacts envC5w st0C5 "x" 7 8) :=
  refresh_idempotent_amended envC5w st0C5 (some ["x"]) ["x"]
    [("x", ⟨true, "refreshed", none⟩)] (cache_artifacts envC5w st0C5 "x" 7 8)
    (by decide) rfl rfl (by decide)

/-! Claim C8. -/

/-- Concrete environment for the C8 counterexample: one `-models`
repository whose docs-branch probe raises. -/
def envC8 : DiscEnv :=
  { repoFetch := .ok [⟨"x-models", "FlipsideCrypto/x-models"⟩],
    branchProbe := fun _ => .error "boom",
    cacheValid := fun _ => false, nowIso := "t0", persistOk := .ok () }

/-- C8 counterexample: an internal error during branch checking does NOT
make the discovery call return an empty list.  The probe's catch-all
records `has_docs_branch="False"` for that repository and discovery
returns the one-element list. -/
theorem discovery_branch_error_nonempty_counterexample :
    envC8.branchProbe "FlipsideCrypto/x-models" = .error "boom" ∧
    (discover_flipside_projects envC8 [] false false none).1.length = 1 ∧
    (discover_flipside_projects envC8 [] false false none).1.map
      (fun r => r.has_docs_branch) = ["False"] :=
  ⟨rfl, rfl, rfl⟩

/-- C8 amended: `discover_flipside_projects` always returns a list and
never raises, but only an error escaping the repository listing yields
the empty list (with the store untouched); an error while persisting is
swallowed and never affects the returned list, and an error while branch
checking is swallowed per-repository as a `False` probe result — the
discovered list is still returned. -/
theorem discovery_error_handling_amended (env : DiscEnv)
    (csv : List ProjectRow) (s f : Bool) (sp : Option (List String)) :
    (∀ e, env.repoFetch = .error e →
      discover_flipside_projects env csv s f sp = ([], csv)) ∧
    (∀ p q : Except String Unit,
      (discover_flipside_projects { env with persistOk := p } csv s f sp).1
        = (discover_flipside_projects { env with persistOk := q } csv s f sp).1) ∧
    (∀ fn e, env.branchProbe fn = .error e →
      check_docs_branch env fn = false) := by
  refine ⟨?_, ?_, ?_⟩
  · intro e he
    simp [discover_flipside_projects, he]
  · intro p q
    cases henv : env.repoFetch with
    | error e => simp [discover_flipside_projects, henv]
    | ok repos =>
      simp [discover_flipside_projects, check_docs_branch, buildRow, henv]
  · intro fn e h
    simp [check_docs_branch, h]

/-- Environment for the C8 witness whose repository listing raises. -/
def envC8down : DiscEnv :=
  { repoFetch := .error "down", branchProbe := fun _ => .ok true,
    cacheValid := fun _ => false, nowIso := "t", persistOk := .ok () }

/-- C8 amended witness: the three amended clauses at concrete
environments — listing failure yields the empty result with the store
untouched, a persist error does not change the returned list, and a
probe error is recorded as `false`. -/
theorem discovery_error_handling_amended_witness :
    discover_flipside_projects envC8down [] false false none = ([], []) ∧
    check_docs_branch envC8 "FlipsideCrypto/x-models" = false ∧
    (discover_flipside_projects { envC8 with persistOk := .error "disk" } []
        false false none).1
      = (discover_flipside_projects { envC8 with persistOk := .ok () } []
        false false none).1 :=
  ⟨(discovery_error_handling_amended envC8down [] false false none).1
      "down" rfl,
   (discovery_error_handling_amended envC8 [] false false none).2.2
      "FlipsideCrypto/x-models" "boom" rfl,
   (discovery_error_handling_amended envC8 [] false false none).2.1
      (.error "disk") (.ok ())⟩

/-! Claim C9. -/

/-- C9: `_write_csv_data` with empty data returns before opening the
file, `_update_discovered_projects` with an empty project list therefore
leaves the store unchanged, and consequently a discovery run that
produces an empty list never truncates or clears the persisted rows. -/
theorem empty_discovery_preserves_store (env : DiscEnv)
    (csv : List ProjectRow) (s f : Bool) (sp : Option (List String)) :
    write_csv_data env csv [] = csv ∧
    update_discovered_projects env csv [] = csv ∧
    ((discover_flipside_projects env csv s f sp).1 = [] →
      (discover_flipside_projects env csv s f sp).2 = csv) := by
  refine ⟨rfl, rfl, ?_⟩
  cases henv : env.repoFetch with
  | error e =>
    simp [discover_flipside_projects, henv]
  | ok repos =>
    intro h1
    simp only [discover_flipside_projects, henv] at h1 ⊢
    rw [h1]
    rfl

/-- Previously persisted row for the C9 witness. -/
def rowC9 : ProjectRow :=
  ⟨"old-models", "Old Models", "old", "unknown", "old-models",
   "FlipsideCrypto/old-models", "2024-01-01", "success", "",
   "2024-01-01", "True"⟩

/-- Environment for the C9 witness: the organisation listing returns no
repositories, so discovery produces an empty list. -/
def envC9 : DiscEnv :=
  { repoFetch := .ok [], branchProbe := fun _ => .ok true,
    cacheValid := fun _ => false, nowIso := "t", persistOk := .ok () }

/-- C9 witness: an empty discovery result leaves the previously persisted
row in the store. -/
theorem empty_discovery_preserves_store_witness :
    (discover_flipside_projects envC9 [rowC9] true false none).2 = [rowC9] :=
  (empty_discovery_preserves_store envC9 [rowC9] true false none).2.2 rfl

end DataDiscovery
